import Mathlib

/-
Verification of the HorizonMaps navigation-progression logic.

The repository implements the same inline navigation logic in several
near-duplicate React components.  The canonical variant embedded here is the
watchPosition callback of startNavigation in src/unnamed/part_008 (thresholds
25 m for step advance, 40 m for off-route); src/unnamed/part_007 is the same
code with thresholds 30/50, and src/src/App.jsx has the same step-advance
branch (threshold 30) without the off-route branch.  The two thresholds are
therefore parameters here (STEP_RADIUS_M, OFF_ROUTE_THRESHOLD_M), as is the
distance function haversineMeters: every property proved below is a
control-flow/threshold property holding for an arbitrary distance function,
hence in particular for the haversine formula (Earth radius 6 371 000 m) that
every variant uses.  JavaScript numbers are modelled as rationals.

Purely presentational effects of the callback (markers, map easing, speech
synthesis, wake locks, watch-id bookkeeping) are outside the model; the
modelled state is exactly the React state read and written by the navigation
logic: route (the planned geometry), steps, currentStep, the navigating flag
and the origin coordinate.
-/

set_option autoImplicit false

namespace HorizonMaps

/-- A latitude/longitude pair.  The source passes coordinates either as
separate lat/lng numbers or as [lng, lat] arrays. -/
structure Coord where
  lat : ℚ
  lng : ℚ
deriving DecidableEq, Repr

/-- A step maneuver, as read from the directions response:
step.maneuver.location (may be absent) and step.maneuver.instruction. -/
structure Maneuver where
  location : Option Coord
  instruction : Option String
deriving DecidableEq, Repr

/-- A route step; the source only ever reads step.maneuver. -/
structure Step where
  maneuver : Option Maneuver
deriving DecidableEq, Repr

/-- The planned route geometry (r.geometry): its coordinates list is the
polyline scanned by the off-route check. -/
structure RouteGeometry where
  coordinates : List Coord
deriving DecidableEq, Repr

/-- The React state read and written by the navigation logic of
src/unnamed/part_008: route, steps, currentStep, navigating, origin. -/
structure NavState where
  route : Option RouteGeometry
  steps : List Step
  currentStep : ℕ
  navigating : Bool
  origin : Option Coord
deriving DecidableEq, Repr

/-- The event vocabulary of the specification for a single position sample.
The embedded callback reports the events it fires as a list (the source can
both advance a step and detect off-route in one sample); an empty list is the
NoChange outcome.  The arrived constructor is part of the vocabulary so that
its absence from the code can be stated; no transition below produces it. -/
inductive NavEvent
  | stepAdvanced (newIndex : ℕ)
  | offRoute
  | arrived
deriving DecidableEq, Repr

/-- Initial React state: no route, empty steps, currentStep 0, not
navigating. -/
def initState : NavState :=
  { route := none, steps := [], currentStep := 0, navigating := false,
    origin := none }

section Tracker

variable (haversineMeters : ℚ → ℚ → ℚ → ℚ → ℚ)

/-- src/unnamed/part_008 lines 553-558: the minimum distance from the sample
to the route polyline vertices, computed by the linear reduce
route.coordinates.reduce((min, c) => d < min ? d : min, Infinity) with
d = haversineMeters(lat, lng, c[1], c[0]).  JavaScript Infinity is the top
element of WithTop. -/
def minVertexMeters (lat lng : ℚ) (coords : List Coord) : WithTop ℚ :=
  coords.foldl
    (fun mn c =>
      let d : WithTop ℚ := (haversineMeters lat lng c.lat c.lng : ℚ)
      if d < mn then d else mn)
    ⊤

/-- src/unnamed/part_008 lines 534-550 (step progression block of the
watchPosition callback): if steps is nonempty, read steps[currentStep]; if it
has a maneuver location, compute haversineMeters to it and, when that is
strictly below the step radius and currentStep is not the last index,
advance currentStep by one (announcing the next instruction, a presentational
effect outside the model).  Returns the new state and the events fired. -/
def stepProgression (STEP_RADIUS_M : ℚ) (s : NavState) (lat lng : ℚ) :
    NavState × List NavEvent :=
  if s.steps.length ≠ 0 then
    match s.steps.get? s.currentStep with
    | some step =>
      match step.maneuver with
      | some man =>
        match man.location with
        | some tgt =>
          let meters := haversineMeters lat lng tgt.lat tgt.lng
          if meters < STEP_RADIUS_M ∧ s.currentStep < s.steps.length - 1 then
            ({ s with currentStep := s.currentStep + 1 },
             [NavEvent.stepAdvanced (s.currentStep + 1)])
          else (s, [])
        | none => (s, [])
      | none => (s, [])
    | none => (s, [])
  else (s, [])

/-- src/unnamed/part_008 lines 524-585: the synchronous body of the
watchPosition callback, per position sample.  After the step-progression
block, if the route geometry is present with a nonempty coordinates list and
the minimum vertex distance strictly exceeds the off-route threshold, the
callback itself sets origin to the sample and issues a directions fetch from
it (the inline reroute); the third component lists the origins of the fetches
the callback issues.  The asynchronous continuation that installs the fetch
response is applyRerouteResponse below. -/
def onPositionUpdate (STEP_RADIUS_M OFF_ROUTE_THRESHOLD_M : ℚ)
    (s : NavState) (lat lng : ℚ) :
    NavState × List NavEvent × List Coord :=
  let sp := stepProgression haversineMeters STEP_RADIUS_M s lat lng
  match s.route with
  | some geo =>
    if 0 < geo.coordinates.length then
      if (OFF_ROUTE_THRESHOLD_M : WithTop ℚ) <
          minVertexMeters haversineMeters lat lng geo.coordinates then
        ({ sp.1 with origin := some ⟨lat, lng⟩ },
         sp.2 ++ [NavEvent.offRoute], [⟨lat, lng⟩])
      else (sp.1, sp.2, [])
    else (sp.1, sp.2, [])
  | none => (sp.1, sp.2, [])

end Tracker

/-- src/unnamed/part_008 lines 571-580 (and the surrounding try/catch): the
continuation of the inline reroute fetch.  If the response contains a first
route, install its geometry and first-leg steps and reset currentStep to 0;
on a response with no routes, or a fetch error, nothing is changed. -/
def applyRerouteResponse (s : NavState)
    (resp : Option (RouteGeometry × List Step)) : NavState :=
  match resp with
  | some (newGeo, newSteps) =>
    { s with route := some newGeo, steps := newSteps, currentStep := 0 }
  | none => s

/-- src/unnamed/part_008 lines 495-515 (and src/src/App.jsx lines 452-462):
startNavigation returns immediately with an alert when no route is planned
(the only validation present); otherwise it sets navigating to true and
installs the position watch. -/
def startNavigation (s : NavState) : NavState :=
  match s.route with
  | none => s
  | some _ => { s with navigating := true }

/-- src/unnamed/part_008 lines 598-607 / src/src/App.jsx lines 506-514:
stopNavigation clears the watch and sets navigating to false. -/
def stopNavigation (s : NavState) : NavState :=
  { s with navigating := false }

/-- src/unnamed/part_008 lines 473-480 / src/src/App.jsx lines 390-408:
planRoute installs the fetched geometry and first-leg steps (possibly the
empty list, via the || [] fallback) and resets currentStep to 0. -/
def installPlannedRoute (s : NavState) (newGeo : RouteGeometry)
    (newSteps : List Step) : NavState :=
  { s with route := some newGeo, steps := newSteps, currentStep := 0 }

/-- src/src/App.jsx lines 517-531: clearRoute removes the route, empties the
steps and resets currentStep to 0. -/
def clearRoute (s : NavState) : NavState :=
  { s with route := none, steps := [], currentStep := 0 }

/-- The states reachable through the operations of the navigation logic,
starting from the initial React state, for a fixed distance function and
thresholds.  The reroute transition over-approximates by allowing any
response at any time. -/
inductive Reachable (haversineMeters : ℚ → ℚ → ℚ → ℚ → ℚ)
    (STEP_RADIUS_M OFF_ROUTE_THRESHOLD_M : ℚ) : NavState → Prop
  | init : Reachable haversineMeters STEP_RADIUS_M OFF_ROUTE_THRESHOLD_M initState
  | plan {s : NavState} (newGeo : RouteGeometry) (newSteps : List Step) :
      Reachable haversineMeters STEP_RADIUS_M OFF_ROUTE_THRESHOLD_M s →
      Reachable haversineMeters STEP_RADIUS_M OFF_ROUTE_THRESHOLD_M
        (installPlannedRoute s newGeo newSteps)
  | startNav {s : NavState} :
      Reachable haversineMeters STEP_RADIUS_M OFF_ROUTE_THRESHOLD_M s →
      Reachable haversineMeters STEP_RADIUS_M OFF_ROUTE_THRESHOLD_M
        (startNavigation s)
  | stopNav {s : NavState} :
      Reachable haversineMeters STEP_RADIUS_M OFF_ROUTE_THRESHOLD_M s →
      Reachable haversineMeters STEP_RADIUS_M OFF_ROUTE_THRESHOLD_M
        (stopNavigation s)
  | clear {s : NavState} :
      Reachable haversineMeters STEP_RADIUS_M OFF_ROUTE_THRESHOLD_M s →
      Reachable haversineMeters STEP_RADIUS_M OFF_ROUTE_THRESHOLD_M
        (clearRoute s)
  | update {s : NavState} (lat lng : ℚ) :
      Reachable haversineMeters STEP_RADIUS_M OFF_ROUTE_THRESHOLD_M s →
      Reachable haversineMeters STEP_RADIUS_M OFF_ROUTE_THRESHOLD_M
        (onPositionUpdate haversineMeters STEP_RADIUS_M OFF_ROUTE_THRESHOLD_M
          s lat lng).1
  | reroute {s : NavState} (resp : Option (RouteGeometry × List Step)) :
      Reachable haversineMeters STEP_RADIUS_M OFF_ROUTE_THRESHOLD_M s →
      Reachable haversineMeters STEP_RADIUS_M OFF_ROUTE_THRESHOLD_M
        (applyRerouteResponse s resp)

/-- The maneuver target location of step j, as the source reads it:
steps[j].maneuver.location guarded by truthiness checks. -/
def stepTargetAt (s : NavState) (j : ℕ) : Option Coord :=
  match s.steps.get? j with
  | some step =>
    match step.maneuver with
    | some man => man.location
    | none => none
  | none => none

/-- The guard of the off-route branch of the callback: a route geometry is
present, its coordinates list is nonempty, and the minimum vertex distance
strictly exceeds the threshold. -/
def offRouteCondition (hm : ℚ → ℚ → ℚ → ℚ → ℚ) (OR : ℚ) (s : NavState)
    (lat lng : ℚ) : Prop :=
  ∃ geo, s.route = some geo ∧ 0 < geo.coordinates.length ∧
    (OR : WithTop ℚ) < minVertexMeters hm lat lng geo.coordinates

/-- A concrete distance function used as test input for witnesses and
counterexamples (the taxicab distance on raw coordinates); the properties
proved below are quantified over every distance function, so any concrete
choice exercises them. -/
def testDist (lat1 lon1 lat2 lon2 : ℚ) : ℚ :=
  (if lat1 ≤ lat2 then lat2 - lat1 else lat1 - lat2) +
  (if lon1 ≤ lon2 then lon2 - lon1 else lon1 - lon2)

/-- Concrete two-vertex route geometry used as test input. -/
def geoA : RouteGeometry := ⟨[⟨0, 0⟩, ⟨10, 0⟩]⟩

/-- Concrete two-step list used as test input. -/
def stepsA : List Step :=
  [⟨some ⟨some ⟨0, 0⟩, some "turn left"⟩⟩,
   ⟨some ⟨some ⟨10, 0⟩, some "you have arrived"⟩⟩]

/-- Concrete navigating state at the final step index of stepsA. -/
def sLast : NavState :=
  { route := some geoA, steps := stepsA, currentStep := 1, navigating := true,
    origin := none }

/-- Concrete navigating state at step index 0 of a two-step route whose
second target is far away. -/
def sFirst : NavState :=
  { route := some ⟨[⟨0, 0⟩, ⟨100, 0⟩]⟩,
    steps := [⟨some ⟨some ⟨0, 0⟩, some "go"⟩⟩,
              ⟨some ⟨some ⟨100, 0⟩, some "stop"⟩⟩],
    currentStep := 0, navigating := true, origin := none }

/-- Concrete state with a planned route whose steps list is empty. -/
def sEmptySteps : NavState :=
  { route := some ⟨[⟨0, 0⟩]⟩, steps := [], currentStep := 0,
    navigating := false, origin := none }

/-- Concrete state whose current target is exactly 25 from the sample at
the origin of coordinates and whose single polyline vertex is exactly 40
from it (under testDist). -/
def sBoundary : NavState :=
  { route := some ⟨[⟨40, 0⟩]⟩,
    steps := [⟨some ⟨some ⟨25, 0⟩, some "edge"⟩⟩,
              ⟨some ⟨some ⟨90, 0⟩, some "end"⟩⟩],
    currentStep := 0, navigating := true, origin := none }

/- ------------------------------------------------------------------ -/
/- Structural lemmas about the embedded callback.                      -/
/- ------------------------------------------------------------------ -/

section TrackerLemmas

variable (hm : ℚ → ℚ → ℚ → ℚ → ℚ) (SR OR : ℚ) (s : NavState) (lat lng : ℚ)

/-- The step-progression block either leaves the state alone with no event,
or fires exactly the guard of the source and advances the index by one. -/
theorem stepProgression_cases :
    stepProgression hm SR s lat lng = (s, []) ∨
      ((∃ tgt, stepTargetAt s s.currentStep = some tgt ∧
          hm lat lng tgt.lat tgt.lng < SR) ∧
        s.currentStep < s.steps.length - 1 ∧
        stepProgression hm SR s lat lng =
          ({ s with currentStep := s.currentStep + 1 },
           [NavEvent.stepAdvanced (s.currentStep + 1)])) := by
  simp only [stepProgression]
  split
  · split
    · rename_i step hget
      split
      · rename_i man hman
        split
        · rename_i tgt hloc
          split
          · rename_i hcond
            refine Or.inr ⟨⟨tgt, ?_, hcond.1⟩, hcond.2, rfl⟩
            rw [List.get?_eq_getElem?] at hget
            simp [stepTargetAt, hget, hman, hloc]
          · exact Or.inl rfl
        · exact Or.inl rfl
      · exact Or.inl rfl
    · exact Or.inl rfl
  · exact Or.inl rfl

/-- When the source guard holds, the step-progression block advances the
index by exactly one and fires exactly one StepAdvanced event. -/
theorem stepProgression_advances
    (tgt : Coord)
    (htgt : stepTargetAt s s.currentStep = some tgt)
    (hnear : hm lat lng tgt.lat tgt.lng < SR)
    (hlast : s.currentStep < s.steps.length - 1) :
    stepProgression hm SR s lat lng =
      ({ s with currentStep := s.currentStep + 1 },
       [NavEvent.stepAdvanced (s.currentStep + 1)]) := by
  have hget : ∃ step, s.steps.get? s.currentStep = some step := by
    unfold stepTargetAt at htgt
    cases hg : s.steps.get? s.currentStep with
    | none => rw [hg] at htgt; exact absurd htgt (by simp)
    | some step => exact ⟨step, rfl⟩
  obtain ⟨step, hstep⟩ := hget
  have hlen : s.steps.length ≠ 0 := by
    intro h0
    have hnone : s.steps.get? s.currentStep = none :=
      List.get?_eq_none.2 (by omega : s.steps.length ≤ s.currentStep)
    rw [hnone] at hstep; cases hstep
  simp only [stepTargetAt, hstep] at htgt
  cases hman : step.maneuver with
  | none => rw [hman] at htgt; cases htgt
  | some man =>
    simp only [hman] at htgt
    rw [List.get?_eq_getElem?] at hstep
    simp [stepProgression, hlen, hstep, hman, htgt, hnear, hlast]

/-- The step-progression block never changes route, steps, navigating or
origin, and moves the index by zero or one. -/
theorem stepProgression_frame :
    ((stepProgression hm SR s lat lng).1.route = s.route ∧
      (stepProgression hm SR s lat lng).1.steps = s.steps ∧
      (stepProgression hm SR s lat lng).1.navigating = s.navigating ∧
      (stepProgression hm SR s lat lng).1.origin = s.origin) ∧
    ((stepProgression hm SR s lat lng).1.currentStep = s.currentStep ∨
      (s.currentStep < s.steps.length - 1 ∧
        (stepProgression hm SR s lat lng).1.currentStep = s.currentStep + 1)) := by
  rcases stepProgression_cases hm SR s lat lng with h | ⟨_, hlast, h⟩
  · rw [h]; exact ⟨⟨rfl, rfl, rfl, rfl⟩, Or.inl rfl⟩
  · rw [h]; exact ⟨⟨rfl, rfl, rfl, rfl⟩, Or.inr ⟨hlast, rfl⟩⟩

/-- The step-progression block is inert at the last index (the source guard
requires currentStep < steps.length - 1). -/
theorem stepProgression_at_last
    (hlast : ¬ s.currentStep < s.steps.length - 1) :
    stepProgression hm SR s lat lng = (s, []) := by
  rcases stepProgression_cases hm SR s lat lng with h | ⟨-, h2, -⟩
  · exact h
  · exact absurd h2 hlast

/-- The step-progression block is inert when the sample is not strictly
within the step radius of the current target. -/
theorem stepProgression_not_near
    (h : ∀ tgt, stepTargetAt s s.currentStep = some tgt →
      ¬ hm lat lng tgt.lat tgt.lng < SR) :
    stepProgression hm SR s lat lng = (s, []) := by
  rcases stepProgression_cases hm SR s lat lng with h1 | ⟨⟨tgt, htgt, hnear⟩, -, -⟩
  · exact h1
  · exact absurd hnear (h tgt htgt)

/-- The step-progression block never fires the OffRoute event. -/
theorem stepProgression_no_offRoute :
    NavEvent.offRoute ∉ (stepProgression hm SR s lat lng).2 := by
  rcases stepProgression_cases hm SR s lat lng with h | ⟨-, -, h⟩ <;>
    rw [h] <;> simp

/-- The callback either skips the off-route branch (emitting exactly the
step-progression events and no fetch), or fires it (appending the OffRoute
event, setting origin to the sample and issuing exactly one fetch), according
to the guard. -/
theorem onPositionUpdate_cases :
    (¬ offRouteCondition hm OR s lat lng ∧
      onPositionUpdate hm SR OR s lat lng =
        ((stepProgression hm SR s lat lng).1,
         (stepProgression hm SR s lat lng).2, [])) ∨
    (offRouteCondition hm OR s lat lng ∧
      onPositionUpdate hm SR OR s lat lng =
        ({ (stepProgression hm SR s lat lng).1 with origin := some ⟨lat, lng⟩ },
         (stepProgression hm SR s lat lng).2 ++ [NavEvent.offRoute],
         [⟨lat, lng⟩])) := by
  rcases hroute : s.route with _ | geo
  · refine Or.inl ⟨?_, by simp [onPositionUpdate, hroute]⟩
    rintro ⟨geo, hg, -, -⟩
    rw [hroute] at hg
    cases hg
  · by_cases hlen : 0 < geo.coordinates.length
    · by_cases hfar :
        (OR : WithTop ℚ) < minVertexMeters hm lat lng geo.coordinates
      · exact Or.inr ⟨⟨geo, hroute, hlen, hfar⟩,
          by simp [onPositionUpdate, hroute, hlen, hfar]⟩
      · refine Or.inl ⟨?_, by simp [onPositionUpdate, hroute, hlen, hfar]⟩
        rintro ⟨geo2, hg2, -, hfar2⟩
        rw [hroute] at hg2
        cases hg2
        exact hfar hfar2
    · refine Or.inl ⟨?_, by simp [onPositionUpdate, hroute, hlen]⟩
      rintro ⟨geo2, hg2, hlen2, -⟩
      rw [hroute] at hg2
      cases hg2
      exact hlen hlen2

/-- The callback never changes route, steps or the navigating flag, and moves
the index by zero or one (one only under the source guard). -/
theorem onPositionUpdate_frame :
    ((onPositionUpdate hm SR OR s lat lng).1.route = s.route ∧
      (onPositionUpdate hm SR OR s lat lng).1.steps = s.steps ∧
      (onPositionUpdate hm SR OR s lat lng).1.navigating = s.navigating) ∧
    ((onPositionUpdate hm SR OR s lat lng).1.currentStep = s.currentStep ∨
      (s.currentStep < s.steps.length - 1 ∧
        (onPositionUpdate hm SR OR s lat lng).1.currentStep =
          s.currentStep + 1)) := by
  obtain ⟨⟨hr, hs, hn, -⟩, hidx⟩ := stepProgression_frame hm SR s lat lng
  rcases onPositionUpdate_cases hm SR OR s lat lng with ⟨-, h⟩ | ⟨-, h⟩ <;>
    rw [h] <;>
    exact ⟨⟨hr, hs, hn⟩, hidx⟩

/-- The callback never emits the Arrived event: no branch of the source
produces an arrival notification. -/
theorem arrived_not_emitted :
    NavEvent.arrived ∉ (onPositionUpdate hm SR OR s lat lng).2.1 := by
  have hsp : ∀ ev ∈ (stepProgression hm SR s lat lng).2,
      ev ≠ NavEvent.arrived := by
    rcases stepProgression_cases hm SR s lat lng with h | ⟨-, -, h⟩ <;>
      rw [h] <;> simp
  rcases onPositionUpdate_cases hm SR OR s lat lng with ⟨-, h⟩ | ⟨-, h⟩ <;>
      rw [h] <;> intro hmem
  · exact hsp _ hmem rfl
  · simp only [List.mem_append, List.mem_singleton] at hmem
    rcases hmem with hmem | hmem
    · exact hsp _ hmem rfl
    · cases hmem

end TrackerLemmas

/-- startNavigation never touches currentStep or steps. -/
theorem startNavigation_frame (s : NavState) :
    (startNavigation s).currentStep = s.currentStep ∧
    (startNavigation s).steps = s.steps := by
  unfold startNavigation
  cases s.route <;> exact ⟨rfl, rfl⟩

/- ------------------------------------------------------------------ -/
/- The linear scan computes the minimum vertex distance.               -/
/- ------------------------------------------------------------------ -/

section MinScan

variable (d : Coord → WithTop ℚ)

/-- The reduce of the off-route scan is a lower bound of its accumulator and
of every scanned distance. -/
theorem foldlMin_le :
    ∀ (coords : List Coord) (acc : WithTop ℚ),
      coords.foldl (fun mn c => if d c < mn then d c else mn) acc ≤ acc ∧
      ∀ c ∈ coords,
        coords.foldl (fun mn c => if d c < mn then d c else mn) acc ≤ d c := by
  intro coords
  induction coords with
  | nil => intro acc; exact ⟨le_refl acc, by simp⟩
  | cons c cs ih =>
    intro acc
    have hstep : (if d c < acc then d c else acc) ≤ acc ∧
        (if d c < acc then d c else acc) ≤ d c := by
      by_cases h : d c < acc
      · simp [h, le_of_lt h]
      · simp [h, le_of_not_lt h]
    obtain ⟨ih1, ih2⟩ := ih (if d c < acc then d c else acc)
    refine ⟨le_trans ih1 hstep.1, ?_⟩
    intro c2 hc2
    rcases List.mem_cons.1 hc2 with hc2 | hc2
    · subst hc2
      simpa using le_trans ih1 hstep.2
    · simpa using ih2 c2 hc2

/-- The reduce of the off-route scan returns its accumulator or one of the
scanned distances. -/
theorem foldlMin_attained :
    ∀ (coords : List Coord) (acc : WithTop ℚ),
      coords.foldl (fun mn c => if d c < mn then d c else mn) acc = acc ∨
      ∃ c ∈ coords,
        coords.foldl (fun mn c => if d c < mn then d c else mn) acc = d c := by
  intro coords
  induction coords with
  | nil => intro acc; exact Or.inl rfl
  | cons c cs ih =>
    intro acc
    rcases ih (if d c < acc then d c else acc) with h | ⟨c2, hc2, h⟩
    · by_cases hlt : d c < acc
      · refine Or.inr ⟨c, List.mem_cons_self c cs, ?_⟩
        simpa [hlt] using h
      · refine Or.inl ?_
        simpa [hlt] using h
    · exact Or.inr ⟨c2, List.mem_cons_of_mem c hc2, by simpa using h⟩

end MinScan

section MinScanApplied

variable (hm : ℚ → ℚ → ℚ → ℚ → ℚ) (lat lng : ℚ)

/-- The scan result is below every vertex distance. -/
theorem minVertexMeters_le (coords : List Coord) (c : Coord) (hc : c ∈ coords) :
    minVertexMeters hm lat lng coords ≤
      ((hm lat lng c.lat c.lng : ℚ) : WithTop ℚ) :=
  (foldlMin_le (fun c => ((hm lat lng c.lat c.lng : ℚ) : WithTop ℚ))
    coords ⊤).2 c hc

/-- On a nonempty polyline, the scan result is one of the vertex distances:
together with minVertexMeters_le it is exactly their minimum. -/
theorem minVertexMeters_attained (coords : List Coord) (h : coords ≠ []) :
    ∃ c ∈ coords, minVertexMeters hm lat lng coords =
      ((hm lat lng c.lat c.lng : ℚ) : WithTop ℚ) := by
  rcases foldlMin_attained
      (fun c => ((hm lat lng c.lat c.lng : ℚ) : WithTop ℚ)) coords ⊤ with
    htop | hmem
  · obtain ⟨c, hc⟩ := List.exists_mem_of_ne_nil coords h
    have hle := (foldlMin_le
      (fun c => ((hm lat lng c.lat c.lng : ℚ) : WithTop ℚ)) coords ⊤).2 c hc
    rw [htop] at hle
    exact absurd (lt_of_le_of_lt hle (WithTop.coe_lt_top _)) (lt_irrefl ⊤)
  · exact hmem

/-- If every vertex is strictly farther than q, the scan minimum strictly
exceeds q. -/
theorem minVertexMeters_gt (coords : List Coord) (q : ℚ) (hne : coords ≠ [])
    (h : ∀ c ∈ coords, q < hm lat lng c.lat c.lng) :
    (q : WithTop ℚ) < minVertexMeters hm lat lng coords := by
  obtain ⟨c, hc, hmin⟩ := minVertexMeters_attained hm lat lng coords hne
  rw [hmin]
  exact_mod_cast h c hc

/-- If some vertex is within q, the scan minimum does not strictly exceed
q. -/
theorem minVertexMeters_not_gt (coords : List Coord) (q : ℚ) (c : Coord)
    (hc : c ∈ coords) (h : hm lat lng c.lat c.lng ≤ q) :
    ¬ (q : WithTop ℚ) < minVertexMeters hm lat lng coords := by
  intro hlt
  have hle := minVertexMeters_le hm lat lng coords c hc
  have hqc : (q : WithTop ℚ) < ((hm lat lng c.lat c.lng : ℚ) : WithTop ℚ) :=
    lt_of_lt_of_le hlt hle
  rw [WithTop.coe_lt_coe] at hqc
  exact absurd hqc (not_lt.2 h)

end MinScanApplied

/-- At sLast, a sample at (100, 100) satisfies the off-route guard under
testDist with threshold 40: both vertices are farther than 40. -/
theorem sLast_far_offRoute : offRouteCondition testDist 40 sLast 100 100 := by
  refine ⟨geoA, rfl, by decide, ?_⟩
  refine minVertexMeters_gt testDist 100 100 geoA.coordinates 40 (by decide) ?_
  intro c hc
  have hmem : c = (⟨0, 0⟩ : Coord) ∨ c = (⟨10, 0⟩ : Coord) := by
    simpa [geoA] using hc
  rcases hmem with rfl | rfl <;> norm_num [testDist]

/-- At sLast, a sample at (10, 0) sits on a polyline vertex, so the off-route
guard fails under testDist with threshold 40. -/
theorem sLast_near_onRoute : ¬ offRouteCondition testDist 40 sLast 10 0 := by
  rintro ⟨geo, hg, -, hfar⟩
  have hga : sLast.route = some geoA := rfl
  rw [hga] at hg
  cases hg
  exact minVertexMeters_not_gt testDist 10 0 geoA.coordinates 40 ⟨10, 0⟩
    (by decide) (by norm_num [testDist]) hfar

/- ------------------------------------------------------------------ -/
/- Claim theorems.                                                     -/
/- ------------------------------------------------------------------ -/

/-- C1 counterexample: at the concrete state sLast (two steps, currentStep
at the last index 1), a sample exactly on the final target (distance 0,
strictly inside any arrival radius) leaves the state unchanged and emits no
event at all - the Arrived event the claim requires is not returned - and a
later sample far from the polyline still emits OffRoute, though the claim
says no further OffRoute may be produced until start or replaceRoute. -/
theorem C1_counterexample :
    onPositionUpdate testDist 25 40 sLast 10 0 = (sLast, [], []) ∧
    NavEvent.offRoute ∈ (onPositionUpdate testDist 25 40 sLast 100 100).2.1 := by
  constructor
  · have hsp : stepProgression testDist 25 sLast 10 0 = (sLast, []) :=
      stepProgression_at_last testDist 25 sLast 10 0 (by decide)
    rcases onPositionUpdate_cases testDist 25 40 sLast 10 0 with
      ⟨-, h⟩ | ⟨hc, -⟩
    · rw [h, hsp]
    · exact absurd hc sLast_near_onRoute
  · rcases onPositionUpdate_cases testDist 25 40 sLast 100 100 with
      ⟨hnc, -⟩ | ⟨-, h⟩
    · exact absurd sLast_far_offRoute hnc
    · rw [h]
      simp

/-- C1 amended: when currentStep is the last index, a position update leaves
the index unchanged and fires no StepAdvanced event, and no update ever
produces an Arrived event (the code has no arrival state); contrary to the
claim, no Arrived event or status exists, and later updates may still
produce OffRoute. -/
theorem C1_final_step_produces_no_arrival
    (hm : ℚ → ℚ → ℚ → ℚ → ℚ) (SR OR : ℚ) (s : NavState) (lat lng : ℚ)
    (hlast : s.currentStep = s.steps.length - 1) :
    NavEvent.arrived ∉ (onPositionUpdate hm SR OR s lat lng).2.1 ∧
    (onPositionUpdate hm SR OR s lat lng).1.currentStep = s.currentStep ∧
    ∀ k, NavEvent.stepAdvanced k ∉ (onPositionUpdate hm SR OR s lat lng).2.1 := by
  have hsp : stepProgression hm SR s lat lng = (s, []) :=
    stepProgression_at_last hm SR s lat lng (by omega)
  refine ⟨arrived_not_emitted hm SR OR s lat lng, ?_, ?_⟩
  · rcases onPositionUpdate_cases hm SR OR s lat lng with ⟨-, h⟩ | ⟨-, h⟩ <;>
      rw [h, hsp]
  · rcases onPositionUpdate_cases hm SR OR s lat lng with ⟨-, h⟩ | ⟨-, h⟩ <;>
      rw [h, hsp] <;> simp

/-- C1 witness: the amended statement applied at sLast with the sample on the
final target. -/
theorem C1_witness :
    NavEvent.arrived ∉ (onPositionUpdate testDist 25 40 sLast 10 0).2.1 ∧
    (onPositionUpdate testDist 25 40 sLast 10 0).1.currentStep =
      sLast.currentStep ∧
    ∀ k, NavEvent.stepAdvanced k ∉
      (onPositionUpdate testDist 25 40 sLast 10 0).2.1 :=
  C1_final_step_produces_no_arrival testDist 25 40 sLast 10 0 (by decide)

/-- C2 counterexample: at the concrete state sEmptySteps (a planned route
with an empty steps list), startNavigation does not fail and does not leave
the state unchanged: it sets navigating to true and proceeds; the inline
route replacement likewise installs an empty steps list without error. -/
theorem C2_counterexample :
    sEmptySteps.steps = [] ∧
    startNavigation sEmptySteps ≠ sEmptySteps ∧
    (startNavigation sEmptySteps).navigating = true ∧
    applyRerouteResponse sLast (some (⟨[⟨0, 0⟩]⟩, [])) ≠ sLast ∧
    (applyRerouteResponse sLast (some (⟨[⟨0, 0⟩]⟩, []))).steps = [] := by
  refine ⟨rfl, by decide, rfl, by decide, rfl⟩

/-- C2 amended: startNavigation validates only the presence of a planned
route: with no route it returns leaving the state unchanged (an alert, not an
InvalidRouteError), and with any route - steps empty or not - it sets
navigating to true and proceeds; the reroute installation never validates the
steps list. -/
theorem C2_start_validates_only_route_presence (s : NavState) :
    (s.route = none → startNavigation s = s) ∧
    (∀ g, s.route = some g →
      startNavigation s = { s with navigating := true }) ∧
    ∀ (newGeo : RouteGeometry) (newSteps : List Step),
      applyRerouteResponse s (some (newGeo, newSteps)) =
        { s with route := some newGeo, steps := newSteps, currentStep := 0 } := by
  refine ⟨?_, ?_, fun _ _ => rfl⟩
  · intro h
    unfold startNavigation
    rw [h]
  · intro g h
    unfold startNavigation
    rw [h]

/-- C2 witness: the amended statement applied with no route (initState) and
with an empty-steps route (sEmptySteps). -/
theorem C2_witness :
    startNavigation initState = initState ∧
    startNavigation sEmptySteps = { sEmptySteps with navigating := true } :=
  ⟨(C2_start_validates_only_route_presence initState).1 rfl,
   (C2_start_validates_only_route_presence sEmptySteps).2.1 ⟨[⟨0, 0⟩]⟩ rfl⟩

/-- C3: a position update whose distance to the current (non-final) step
target is strictly below the step radius, and not within that radius of any
later step target, advances currentStepIndex from i to exactly i+1 and fires
exactly one StepAdvanced event; and no single position update ever moves the
index by more than one. -/
theorem C3_step_advances_by_one
    (hm : ℚ → ℚ → ℚ → ℚ → ℚ) (SR OR : ℚ) (s : NavState) (lat lng : ℚ)
    (tgt : Coord)
    (htgt : stepTargetAt s s.currentStep = some tgt)
    (hnear : hm lat lng tgt.lat tgt.lng < SR)
    (hnotlast : s.currentStep < s.steps.length - 1)
    (hlater : ∀ j, s.currentStep < j → ∀ c, stepTargetAt s j = some c →
        ¬ hm lat lng c.lat c.lng < SR) :
    (onPositionUpdate hm SR OR s lat lng).1.currentStep = s.currentStep + 1 ∧
    (onPositionUpdate hm SR OR s lat lng).2.1.filter
        (fun ev => match ev with
          | NavEvent.stepAdvanced _ => true
          | _ => false) = [NavEvent.stepAdvanced (s.currentStep + 1)] ∧
    ∀ (s2 : NavState) (lat2 lng2 : ℚ),
      (onPositionUpdate hm SR OR s2 lat2 lng2).1.currentStep ≤
        s2.currentStep + 1 := by
  have hadv := stepProgression_advances hm SR s lat lng tgt htgt hnear hnotlast
  have hskip : ∀ (s2 : NavState) (lat2 lng2 : ℚ),
      (onPositionUpdate hm SR OR s2 lat2 lng2).1.currentStep ≤
        s2.currentStep + 1 := by
    intro s2 lat2 lng2
    rcases (onPositionUpdate_frame hm SR OR s2 lat2 lng2).2 with h | ⟨-, h⟩
    · omega
    · omega
  rcases onPositionUpdate_cases hm SR OR s lat lng with ⟨-, h⟩ | ⟨-, h⟩ <;>
    rw [h, hadv] <;>
    exact ⟨rfl, rfl, hskip⟩

/-- C3 witness: at a concrete two-step route, a sample 1 away from the first
target (radius 25) advances the index from 0 to 1 with exactly one
StepAdvanced event. -/
theorem C3_witness :
    (onPositionUpdate testDist 25 40 sFirst 1 0).1.currentStep = 0 + 1 ∧
    (onPositionUpdate testDist 25 40 sFirst 1 0).2.1.filter
        (fun ev => match ev with
          | NavEvent.stepAdvanced _ => true
          | _ => false) = [NavEvent.stepAdvanced (0 + 1)] ∧
    ∀ (s2 : NavState) (lat2 lng2 : ℚ),
      (onPositionUpdate testDist 25 40 s2 lat2 lng2).1.currentStep ≤
        s2.currentStep + 1 := by
  have hlater : ∀ j, sFirst.currentStep < j → ∀ c,
      stepTargetAt sFirst j = some c → ¬ testDist 1 0 c.lat c.lng < 25 := by
    intro j hj c hc
    match j, hj with
    | 1, _ =>
      have h1 : stepTargetAt sFirst 1 = some ⟨100, 0⟩ := by decide
      rw [h1] at hc
      cases hc
      norm_num [testDist]
    | j + 2, _ =>
      have hlen : sFirst.steps.length = 2 := rfl
      have hn : sFirst.steps.get? (j + 2) = none :=
        List.get?_eq_none.2 (by omega)
      rw [stepTargetAt, hn] at hc
      cases hc
  exact C3_step_advances_by_one testDist 25 40 sFirst 1 0 ⟨0, 0⟩
    (by decide) (by norm_num [testDist]) (by decide) hlater

/-- C4: when the sample is not within the step radius of the current target,
the OffRoute outcome fires exactly when the linear-scan minimum of the vertex
distances strictly exceeds the threshold; that scan result is a lower bound
of all vertex distances and is attained at a vertex, and a sample strictly
farther than the threshold from every vertex always yields OffRoute. -/
theorem C4_offRoute_iff_min_distance_exceeds
    (hm : ℚ → ℚ → ℚ → ℚ → ℚ) (SR OR : ℚ) (s : NavState) (lat lng : ℚ)
    (geo : RouteGeometry)
    (hroute : s.route = some geo)
    (hne : geo.coordinates ≠ [])
    (hfarstep : ∀ c, stepTargetAt s s.currentStep = some c →
        ¬ hm lat lng c.lat c.lng < SR) :
    (NavEvent.offRoute ∈ (onPositionUpdate hm SR OR s lat lng).2.1 ↔
      (OR : WithTop ℚ) < minVertexMeters hm lat lng geo.coordinates) ∧
    (∀ c ∈ geo.coordinates,
        minVertexMeters hm lat lng geo.coordinates ≤
          ((hm lat lng c.lat c.lng : ℚ) : WithTop ℚ)) ∧
    (∃ c ∈ geo.coordinates,
        minVertexMeters hm lat lng geo.coordinates =
          ((hm lat lng c.lat c.lng : ℚ) : WithTop ℚ)) ∧
    ((∀ c ∈ geo.coordinates, OR < hm lat lng c.lat c.lng) →
      NavEvent.offRoute ∈ (onPositionUpdate hm SR OR s lat lng).2.1) := by
  have hlen : 0 < geo.coordinates.length := List.length_pos.2 hne
  have hiff : NavEvent.offRoute ∈ (onPositionUpdate hm SR OR s lat lng).2.1 ↔
      (OR : WithTop ℚ) < minVertexMeters hm lat lng geo.coordinates := by
    constructor
    · intro hmem
      rcases onPositionUpdate_cases hm SR OR s lat lng with ⟨-, h⟩ | ⟨hc, h⟩
      · rw [h] at hmem
        exact absurd hmem (stepProgression_no_offRoute hm SR s lat lng)
      · obtain ⟨geo2, hg2, -, hfar⟩ := hc
        rw [hroute] at hg2
        cases hg2
        exact hfar
    · intro hfar
      rcases onPositionUpdate_cases hm SR OR s lat lng with ⟨hnc, -⟩ | ⟨-, h⟩
      · exact absurd ⟨geo, hroute, hlen, hfar⟩ hnc
      · rw [h]
        simp
  refine ⟨hiff, fun c hc => minVertexMeters_le hm lat lng geo.coordinates c hc,
    minVertexMeters_attained hm lat lng geo.coordinates hne, ?_⟩
  intro hall
  exact hiff.2 (minVertexMeters_gt hm lat lng geo.coordinates OR hne hall)

/-- C4 witness: at the concrete final-step state, a sample at taxicab
distance 190 from the nearest vertex (threshold 40) yields OffRoute, with
the scan minimum attained at a vertex. -/
theorem C4_witness :
    (NavEvent.offRoute ∈ (onPositionUpdate testDist 25 40 sLast 100 100).2.1 ↔
      ((40 : ℚ) : WithTop ℚ) <
        minVertexMeters testDist 100 100 geoA.coordinates) ∧
    (∀ c ∈ geoA.coordinates,
        minVertexMeters testDist 100 100 geoA.coordinates ≤
          ((testDist 100 100 c.lat c.lng : ℚ) : WithTop ℚ)) ∧
    (∃ c ∈ geoA.coordinates,
        minVertexMeters testDist 100 100 geoA.coordinates =
          ((testDist 100 100 c.lat c.lng : ℚ) : WithTop ℚ)) ∧
    ((∀ c ∈ geoA.coordinates, (40 : ℚ) < testDist 100 100 c.lat c.lng) →
      NavEvent.offRoute ∈ (onPositionUpdate testDist 25 40 sLast 100 100).2.1) := by
  refine C4_offRoute_iff_min_distance_exceeds testDist 25 40 sLast 100 100
    geoA rfl (by decide) ?_
  intro c hc
  have h1 : stepTargetAt sLast 1 = some ⟨10, 0⟩ := by decide
  have h2 : stepTargetAt sLast sLast.currentStep = stepTargetAt sLast 1 := rfl
  rw [h2, h1] at hc
  cases hc
  norm_num [testDist]

/-- C5: installing a reroute response always swaps the route wholesale,
resets currentStepIndex to 0 and keeps the tracker navigating, whatever index
was reached on the previous route. -/
theorem C5_replaceRoute_resets_index (s : NavState) (newGeo : RouteGeometry)
    (newSteps : List Step) (hnav : s.navigating = true) :
    applyRerouteResponse s (some (newGeo, newSteps)) =
      { s with route := some newGeo, steps := newSteps, currentStep := 0 } ∧
    (applyRerouteResponse s (some (newGeo, newSteps))).currentStep = 0 ∧
    (applyRerouteResponse s (some (newGeo, newSteps))).route = some newGeo ∧
    (applyRerouteResponse s (some (newGeo, newSteps))).navigating = true :=
  ⟨rfl, rfl, rfl, hnav⟩

/-- C5 witness: the reset applied at sLast (index 1) with a fresh route. -/
theorem C5_witness :
    applyRerouteResponse sLast (some (geoA, stepsA)) =
      { sLast with route := some geoA, steps := stepsA, currentStep := 0 } ∧
    (applyRerouteResponse sLast (some (geoA, stepsA))).currentStep = 0 ∧
    (applyRerouteResponse sLast (some (geoA, stepsA))).route = some geoA ∧
    (applyRerouteResponse sLast (some (geoA, stepsA))).navigating = true :=
  C5_replaceRoute_resets_index sLast geoA stepsA rfl

/-- C6 counterexample: the state reached by planning a route whose steps
list is empty is reachable, has an active route, and its currentStep 0 is
not a valid index into the empty steps list. -/
theorem C6_counterexample :
    Reachable testDist 25 40 (installPlannedRoute initState geoA []) ∧
    (installPlannedRoute initState geoA []).route = some geoA ∧
    ¬ (installPlannedRoute initState geoA []).currentStep <
        (installPlannedRoute initState geoA []).steps.length :=
  ⟨Reachable.plan geoA [] Reachable.init, rfl, by decide⟩

/-- C6 amended: at every reachable state, currentStep is 0 or a valid index;
hence whenever the steps list is nonempty, currentStep is a valid index
(0 <= currentStep <= steps.length - 1).  The unqualified claim fails only on
reachable states whose installed route has an empty steps list, where
currentStep is 0 with no valid index available. -/
theorem C6_index_valid_on_nonempty_steps
    (hm : ℚ → ℚ → ℚ → ℚ → ℚ) (SR OR : ℚ) (s : NavState)
    (h : Reachable hm SR OR s) :
    (s.currentStep = 0 ∨ s.currentStep < s.steps.length) ∧
    (s.steps ≠ [] → s.currentStep < s.steps.length) := by
  have main : s.currentStep = 0 ∨ s.currentStep < s.steps.length := by
    induction h with
    | init => exact Or.inl rfl
    | plan newGeo newSteps hs ih => exact Or.inl rfl
    | startNav hs ih =>
      rename_i s2
      rw [(startNavigation_frame s2).1, (startNavigation_frame s2).2]
      exact ih
    | stopNav hs ih => exact ih
    | clear hs ih => exact Or.inl rfl
    | update lat lng hs ih =>
      rename_i s2
      obtain ⟨⟨-, hsteps, -⟩, hidx⟩ := onPositionUpdate_frame hm SR OR s2 lat lng
      rcases hidx with hsame | ⟨hguard, hadv⟩
      · rw [hsame, hsteps]
        exact ih
      · rw [hadv, hsteps]
        right
        omega
    | reroute resp hs ih =>
      cases resp with
      | none => exact ih
      | some p =>
        obtain ⟨g, st⟩ := p
        exact Or.inl rfl
  refine ⟨main, ?_⟩
  intro hne
  rcases main with h0 | hlt
  · rw [h0]
    exact List.length_pos.2 hne
  · exact hlt

/-- C6 witness: the amended invariant applied to the reachable state obtained
by planning a two-step route, whose index 0 is a valid index. -/
theorem C6_witness :
    (installPlannedRoute initState geoA stepsA).currentStep <
      (installPlannedRoute initState geoA stepsA).steps.length :=
  (C6_index_valid_on_nonempty_steps testDist 25 40
      (installPlannedRoute initState geoA stepsA)
      (Reachable.plan geoA stepsA Reachable.init)).2 (by decide)

/-- C7 counterexample: at the concrete state sLast, a sample far from the
polyline makes the position-update handler itself issue a reroute fetch (from
the sample position): the list of fetches the handler performs is nonempty,
contradicting the claim that the handler performs no network I/O. -/
theorem C7_counterexample :
    (onPositionUpdate testDist 25 40 sLast 100 100).2.2 = [⟨100, 100⟩] ∧
    (onPositionUpdate testDist 25 40 sLast 100 100).2.2 ≠ [] := by
  rcases onPositionUpdate_cases testDist 25 40 sLast 100 100 with
    ⟨hnc, -⟩ | ⟨-, h⟩
  · exact absurd sLast_far_offRoute hnc
  · rw [h]
    exact ⟨rfl, by simp⟩

/-- C7 amended: the per-sample handler is not I/O-free: exactly when the
off-route guard holds it itself issues one reroute fetch from the sample
position (also setting origin), and its continuation installs the response;
no OffRoute signal is left to an outer caller. -/
theorem C7_handler_issues_reroute_fetch
    (hm : ℚ → ℚ → ℚ → ℚ → ℚ) (SR OR : ℚ) (s : NavState) (lat lng : ℚ) :
    ((onPositionUpdate hm SR OR s lat lng).2.2 = [] ∧
      ¬ offRouteCondition hm OR s lat lng) ∨
    ((onPositionUpdate hm SR OR s lat lng).2.2 = [⟨lat, lng⟩] ∧
      offRouteCondition hm OR s lat lng ∧
      (onPositionUpdate hm SR OR s lat lng).1.origin = some ⟨lat, lng⟩) := by
  rcases onPositionUpdate_cases hm SR OR s lat lng with ⟨hnc, h⟩ | ⟨hc, h⟩
  · left
    rw [h]
    exact ⟨rfl, hnc⟩
  · right
    rw [h]
    exact ⟨rfl, hc, rfl⟩

/-- C8: a reroute response with no route (NoRouteFound) changes nothing, and
composed with the preceding position update the previously active route and
steps are fully retained (the sync update itself never touches them). -/
theorem C8_failed_reroute_keeps_route
    (hm : ℚ → ℚ → ℚ → ℚ → ℚ) (SR OR : ℚ) (s : NavState) (lat lng : ℚ) :
    applyRerouteResponse s none = s ∧
    (applyRerouteResponse ((onPositionUpdate hm SR OR s lat lng).1) none).route
      = s.route ∧
    (applyRerouteResponse ((onPositionUpdate hm SR OR s lat lng).1) none).steps
      = s.steps :=
  ⟨rfl, (onPositionUpdate_frame hm SR OR s lat lng).1.1,
    (onPositionUpdate_frame hm SR OR s lat lng).1.2.1⟩

/-- C9: threshold comparisons are strict: a sample exactly at the step radius
from the current target does not advance the step (and nothing ever arrives),
and a scan minimum exactly at the off-route threshold does not trigger
OffRoute. -/
theorem C9_boundary_counts_as_not_yet
    (hm : ℚ → ℚ → ℚ → ℚ → ℚ) (SR OR : ℚ) (s : NavState) (lat lng : ℚ) :
    (∀ tgt, stepTargetAt s s.currentStep = some tgt →
      hm lat lng tgt.lat tgt.lng = SR →
      (onPositionUpdate hm SR OR s lat lng).1.currentStep = s.currentStep ∧
      ∀ k, NavEvent.stepAdvanced k ∉ (onPositionUpdate hm SR OR s lat lng).2.1) ∧
    (∀ geo, s.route = some geo →
      minVertexMeters hm lat lng geo.coordinates = (OR : WithTop ℚ) →
      NavEvent.offRoute ∉ (onPositionUpdate hm SR OR s lat lng).2.1) ∧
    NavEvent.arrived ∉ (onPositionUpdate hm SR OR s lat lng).2.1 := by
  refine ⟨?_, ?_, arrived_not_emitted hm SR OR s lat lng⟩
  · intro tgt htgt heq
    have hsp : stepProgression hm SR s lat lng = (s, []) := by
      refine stepProgression_not_near hm SR s lat lng ?_
      intro tgt2 htgt2
      rw [htgt] at htgt2
      cases htgt2
      rw [heq]
      exact lt_irrefl SR
    rcases onPositionUpdate_cases hm SR OR s lat lng with ⟨-, h⟩ | ⟨-, h⟩ <;>
      rw [h, hsp]
    · exact ⟨rfl, by simp⟩
    · exact ⟨rfl, by simp⟩
  · intro geo hg hmin hmem
    rcases onPositionUpdate_cases hm SR OR s lat lng with ⟨-, h⟩ | ⟨hc, -⟩
    · rw [h] at hmem
      exact absurd hmem (stepProgression_no_offRoute hm SR s lat lng)
    · obtain ⟨geo2, hg2, -, hfar⟩ := hc
      rw [hg] at hg2
      cases hg2
      rw [hmin] at hfar
      exact absurd hfar (lt_irrefl _)

/-- C9 witness: at sBoundary the current target is exactly 25 away (the step
radius) and the only polyline vertex exactly 40 (the threshold): the sample
neither advances nor goes off-route. -/
theorem C9_witness :
    ((onPositionUpdate testDist 25 40 sBoundary 0 0).1.currentStep =
        sBoundary.currentStep ∧
      ∀ k, NavEvent.stepAdvanced k ∉
        (onPositionUpdate testDist 25 40 sBoundary 0 0).2.1) ∧
    NavEvent.offRoute ∉ (onPositionUpdate testDist 25 40 sBoundary 0 0).2.1 ∧
    NavEvent.arrived ∉ (onPositionUpdate testDist 25 40 sBoundary 0 0).2.1 := by
  have h := C9_boundary_counts_as_not_yet testDist 25 40 sBoundary 0 0
  have hmin : minVertexMeters testDist 0 0
      (RouteGeometry.mk [⟨40, 0⟩]).coordinates = ((40 : ℚ) : WithTop ℚ) := by
    show (if ((testDist 0 0 (40:ℚ) (0:ℚ) : ℚ) : WithTop ℚ) < ⊤ then
        ((testDist 0 0 (40:ℚ) (0:ℚ) : ℚ) : WithTop ℚ) else ⊤) =
      ((40 : ℚ) : WithTop ℚ)
    rw [if_pos (WithTop.coe_lt_top _)]
    rw [WithTop.coe_eq_coe]
    norm_num [testDist]
  exact ⟨h.1 ⟨25, 0⟩ (by decide) (by norm_num [testDist]),
    h.2.1 ⟨[⟨40, 0⟩]⟩ rfl hmin, h.2.2⟩

/-- C10: under an unchanged route, the position-update handler never
decreases currentStep and increases it by at most one; the index returns to 0
only through a route installation (the reroute continuation, planning, or
clearing), while start and stop never touch it. -/
theorem C10_index_monotone_reset_only_by_install
    (hm : ℚ → ℚ → ℚ → ℚ → ℚ) (SR OR : ℚ) (s : NavState) (lat lng : ℚ)
    (resp : Option (RouteGeometry × List Step)) (newGeo : RouteGeometry)
    (newSteps : List Step) :
    (s.currentStep ≤ (onPositionUpdate hm SR OR s lat lng).1.currentStep ∧
      (onPositionUpdate hm SR OR s lat lng).1.currentStep ≤
        s.currentStep + 1 ∧
      (onPositionUpdate hm SR OR s lat lng).1.route = s.route ∧
      (onPositionUpdate hm SR OR s lat lng).1.steps = s.steps) ∧
    (applyRerouteResponse s resp = s ∨
      ∃ g st, resp = some (g, st) ∧
        applyRerouteResponse s resp =
          { s with route := some g, steps := st, currentStep := 0 }) ∧
    ((installPlannedRoute s newGeo newSteps).currentStep = 0 ∧
      (installPlannedRoute s newGeo newSteps).route = some newGeo) ∧
    (clearRoute s).currentStep = 0 ∧
    (startNavigation s).currentStep = s.currentStep ∧
    (stopNavigation s).currentStep = s.currentStep := by
  refine ⟨?_, ?_, ⟨rfl, rfl⟩, rfl, (startNavigation_frame s).1, rfl⟩
  · obtain ⟨⟨hr, hs, -⟩, hidx⟩ := onPositionUpdate_frame hm SR OR s lat lng
    rcases hidx with h | ⟨-, h⟩
    · exact ⟨by omega, by omega, hr, hs⟩
    · exact ⟨by omega, by omega, hr, hs⟩
  · cases resp with
    | none => exact Or.inl rfl
    | some p =>
      obtain ⟨g, st⟩ := p
      exact Or.inr ⟨g, st, rfl, rfl⟩

end HorizonMaps
